import Mathlib

/-!
Verification of the tutanota-cli core against its specification.

The TypeScript sources are embedded shallowly:

* JavaScript values flowing through the wire/decryption pipeline become the
  inductive type `JsValue`; a server instance (`Record<string, unknown>` keyed
  by numeric attribute id) becomes an association list `ServerInstance` with
  JS-object assignment semantics (`setAttr` replaces in place, keeps order).
* External library primitives (`decryptKey`,
  `decryptKeyUnauthenticatedWithDeviceKeyChain`, `aesDecrypt`, `sha256Hash`
  from tutanota-crypto) are opaque to the repository and are therefore
  parameters: fallible ones return `Option`.
* Deterministic byte/string utilities from tutanota-utils (base64 codecs,
  UTF-8 conversion) are implemented concretely.
* TypeScript exceptions become `Except`; a caught exception is handled where
  the source catches it.

Keys and byte arrays are `List Nat` (one `Nat` per byte).
-/

namespace Tutanota

/-- A JavaScript runtime value as it appears in wire instances and decrypted
instances: JSON scalars, arrays, objects, byte arrays (`Uint8Array`), plus the
JS specials `undefined`, `null`, `NaN` and `Date` (a `Date` carries its
millisecond timestamp, `none` for an Invalid Date). Integral numbers only:
every numeric attribute this client touches is integer-valued. -/
inductive JsValue where
  | str (s : String)
  | num (n : Int)
  | bool (b : Bool)
  | bytes (bs : List Nat)
  | arr (vs : List JsValue)
  | obj (fields : List (String × JsValue))
  | date (ms : Option Int)
  | null
  | undefinedV
  | nan

/-- A server-side instance: object keyed by numeric attribute id (string keys).
Mirrors `ServerInstance = Record<string, unknown>`. -/
def ServerInstance := List (String × JsValue)

namespace ServerInstance

/-- JS property read `inst[k]`: first binding wins (a JS object has unique
keys), absent key reads as `undefined`. -/
def getAttr (inst : ServerInstance) (k : String) : JsValue :=
  match inst.find? (fun p => p.1 = k) with
  | some p => p.2
  | none => .undefinedV

/-- JS property write `inst[k] = v`: replaces an existing binding in place
(keeping its position), else appends — JS object insertion-order semantics. -/
def setAttr (inst : ServerInstance) (k : String) (v : JsValue) : ServerInstance :=
  match inst with
  | [] => [(k, v)]
  | (k', v') :: rest =>
    if k' = k then (k', v) :: rest else (k', v') :: setAttr rest k v

/-- JS `k in obj` test. -/
def hasAttr (inst : ServerInstance) (k : String) : Bool :=
  inst.any (fun p => p.1 = k)

end ServerInstance

/-- JS loose-null test `v == null`: true exactly for `null` and `undefined`. -/
def JsValue.isNullish : JsValue → Bool
  | .null => true
  | .undefinedV => true
  | _ => false

/-- Decimal digits of a natural number (most significant first). -/
def natToDigits (n : Nat) : List Char :=
  (Nat.toDigits 10 n)

/-- Parse a list of decimal digit characters; `none` when empty or a
non-digit appears. -/
def parseDecDigits : List Char → Option Nat
  | [] => none
  | cs => cs.foldl (fun acc c =>
      match acc with
      | none => none
      | some n => if c.isDigit then some (n * 10 + (c.toNat - 48)) else none)
      (some 0)

/-- Model of the JS `Number(str)` coercion on the texts this client meets:
empty/whitespace-free integer text (optional sign) parses exactly; anything
else is NaN (`none`). `Number("") = 0`. -/
def jsNumberOfString (s : String) : Option Int :=
  match s.data with
  | [] => some 0
  | '-' :: rest => (parseDecDigits rest).map (fun n => -(n : Int))
  | '+' :: rest => (parseDecDigits rest).map (fun n => (n : Int))
  | cs => (parseDecDigits cs).map (fun n => (n : Int))

/-- Model of JS `parseInt(str, 10)`: parses the longest leading
optional-signed digit run; NaN (`none`) when there is none. -/
def jsParseInt (s : String) : Option Int :=
  let core : List Char → Option Int := fun cs =>
    let digits := cs.takeWhile Char.isDigit
    (parseDecDigits digits).map (fun n => (n : Int))
  match s.data with
  | '-' :: rest => (core rest).map (fun n => -n)
  | '+' :: rest => core rest
  | cs => core cs

/-- Model of the JS `String(v)` coercion on the value shapes that actually
reach it in this client (strings and integer numbers; the remaining
constructors get their JS spellings, dates never reach `String(·)` here). -/
def jsString : JsValue → String
  | .str s => s
  | .num n => toString n
  | .bool b => if b then "true" else "false"
  | .null => "null"
  | .undefinedV => "undefined"
  | .nan => "NaN"
  | .bytes _ => ""
  | .arr _ => ""
  | .obj _ => ""
  | .date _ => ""

/-! ## UTF-8 (tutanota-utils `stringToUtf8Uint8Array` / `utf8Uint8ArrayToString`) -/

/-- UTF-8 encoding of one character. -/
def utf8EncodeChar (c : Char) : List Nat :=
  let n := c.toNat
  if n < 0x80 then [n]
  else if n < 0x800 then
    [0xC0 + (n / 64), 0x80 + (n % 64)]
  else if n < 0x10000 then
    [0xE0 + (n / 4096), 0x80 + ((n / 64) % 64), 0x80 + (n % 64)]
  else
    [0xF0 + (n / 262144), 0x80 + ((n / 4096) % 64), 0x80 + ((n / 64) % 64), 0x80 + (n % 64)]

/-- TS `stringToUtf8Uint8Array`: UTF-8 bytes of a string. -/
def utf8Encode (s : String) : List Nat :=
  (s.data.map utf8EncodeChar).flatten

/-- Fuel-driven UTF-8 decoding loop; a malformed prefix yields U+FFFD, like a
non-fatal `TextDecoder`. -/
def utf8DecodeGo : Nat → List Nat → List Char
  | 0, _ => []
  | _, [] => []
  | fuel + 1, b :: rest =>
    if b < 0x80 then
      Char.ofNat b :: utf8DecodeGo fuel rest
    else if 0xC0 ≤ b ∧ b < 0xE0 then
      match rest with
      | b2 :: rest2 =>
        if 0x80 ≤ b2 ∧ b2 < 0xC0 then
          Char.ofNat ((b - 0xC0) * 64 + (b2 - 0x80)) :: utf8DecodeGo fuel rest2
        else
          Char.ofNat 0xFFFD :: utf8DecodeGo fuel rest
      | [] => [Char.ofNat 0xFFFD]
    else if 0xE0 ≤ b ∧ b < 0xF0 then
      match rest with
      | b2 :: b3 :: rest3 =>
        if (0x80 ≤ b2 ∧ b2 < 0xC0) ∧ (0x80 ≤ b3 ∧ b3 < 0xC0) then
          Char.ofNat ((b - 0xE0) * 4096 + (b2 - 0x80) * 64 + (b3 - 0x80)) :: utf8DecodeGo fuel rest3
        else
          Char.ofNat 0xFFFD :: utf8DecodeGo fuel rest
      | _ => [Char.ofNat 0xFFFD]
    else if 0xF0 ≤ b ∧ b < 0xF8 then
      match rest with
      | b2 :: b3 :: b4 :: rest4 =>
        if (0x80 ≤ b2 ∧ b2 < 0xC0) ∧ (0x80 ≤ b3 ∧ b3 < 0xC0) ∧ (0x80 ≤ b4 ∧ b4 < 0xC0) then
          Char.ofNat ((b - 0xF0) * 262144 + (b2 - 0x80) * 4096 + (b3 - 0x80) * 64 + (b4 - 0x80))
            :: utf8DecodeGo fuel rest4
        else
          Char.ofNat 0xFFFD :: utf8DecodeGo fuel rest
      | _ => [Char.ofNat 0xFFFD]
    else
      Char.ofNat 0xFFFD :: utf8DecodeGo fuel rest

/-- TS `utf8Uint8ArrayToString`: decode UTF-8 bytes to a string (lenient, like
`TextDecoder` without `fatal`). -/
def utf8Decode (bs : List Nat) : String :=
  ⟨utf8DecodeGo bs.length bs⟩

example : utf8Encode "abc" = [97, 98, 99] := by decide
example : utf8Decode [97, 98, 99] = "abc" := by decide
example : utf8Decode (utf8Encode "0") = "0" := by decide

/-! ## Base64 codecs (tutanota-utils / `atob` / `Buffer.from(·, "base64")`) -/

/-- The standard base64 alphabet. -/
def b64Alphabet : List Char :=
  "ABCDEFGHIJKLMNOPQRSTUVWXYZabcdefghijklmnopqrstuvwxyz0123456789+/".data

/-- The tutanota base64-ext alphabet: ASCII-sortable, so that
`GENERATED_MIN_ID = "------------"` and `GENERATED_MAX_ID = "zzzzzzzzzzzz"`
bound all generated ids. -/
def b64ExtAlphabet : List Char :=
  "-0123456789ABCDEFGHIJKLMNOPQRSTUVWXYZ_abcdefghijklmnopqrstuvwxyz".data

/-- Character for a sextet value (0-63) in the standard alphabet. -/
def b64Char (n : Nat) : Char := b64Alphabet.getD n '?'

/-- Index of a character in the standard alphabet, `none` for outsiders. -/
def b64CharIndex (c : Char) : Option Nat :=
  b64Alphabet.indexOf? c

/-- TS `uint8ArrayToBase64`: standard padded base64 encoding. -/
def uint8ArrayToBase64Go : List Nat → List Char
  | [] => []
  | [b1] => [b64Char (b1 / 4), b64Char (b1 % 4 * 16), '=', '=']
  | [b1, b2] => [b64Char (b1 / 4), b64Char (b1 % 4 * 16 + b2 / 16), b64Char (b2 % 16 * 4), '=']
  | b1 :: b2 :: b3 :: rest =>
    b64Char (b1 / 4) :: b64Char (b1 % 4 * 16 + b2 / 16) ::
      b64Char (b2 % 16 * 4 + b3 / 64) :: b64Char (b3 % 64) :: uint8ArrayToBase64Go rest

/-- TS `uint8ArrayToBase64` on a byte list. -/
def uint8ArrayToBase64 (bs : List Nat) : String :=
  ⟨uint8ArrayToBase64Go bs⟩

/-- Strict base64 decoding loop over sextet groups; `none` models the
`InvalidCharacterError` that `atob` throws (canonical padded input). -/
def base64DecodeGo : List Char → Option (List Nat)
  | [] => some []
  | c1 :: c2 :: c3 :: c4 :: rest =>
    match b64CharIndex c1, b64CharIndex c2 with
    | some n1, some n2 =>
      if c3 = '=' then
        if c4 = '=' ∧ rest = [] then some [n1 * 4 + n2 / 16] else none
      else
        match b64CharIndex c3 with
        | some n3 =>
          if c4 = '=' then
            if rest = [] then some [n1 * 4 + n2 / 16, n2 % 16 * 16 + n3 / 4] else none
          else
            match b64CharIndex c4 with
            | some n4 =>
              (base64DecodeGo rest).map
                (fun bs => (n1 * 4 + n2 / 16) :: (n2 % 16 * 16 + n3 / 4) :: (n3 % 4 * 64 + n4) :: bs)
            | none => none
        | none => none
    | _, _ => none
  | _ => none

/-- TS `base64ToUint8Array` (tutanota-utils, via `atob`): strict decode, `none`
when the input is not valid padded base64. -/
def base64ToUint8Array (s : String) : Option (List Nat) :=
  base64DecodeGo s.data

/-- Node `Buffer.from(s, "base64")` used by `toUint8Array`: lenient — ignores
non-alphabet characters, decodes whole sextet groups plus a 2- or 3-character
tail, never throws. -/
def base64DecodeLenientGo : List Nat → List Nat
  | n1 :: n2 :: n3 :: n4 :: rest =>
    (n1 * 4 + n2 / 16) :: (n2 % 16 * 16 + n3 / 4) :: (n3 % 4 * 64 + n4) :: base64DecodeLenientGo rest
  | [n1, n2] => [n1 * 4 + n2 / 16]
  | [n1, n2, n3] => [n1 * 4 + n2 / 16, n2 % 16 * 16 + n3 / 4]
  | _ => []

/-- Lenient base64 decode of a string (Node `Buffer` semantics). -/
def base64DecodeLenient (s : String) : List Nat :=
  base64DecodeLenientGo (s.data.filterMap b64CharIndex)

/-- TS `base64ToBase64Url`: `+ → -`, `/ → _`, padding stripped. -/
def base64ToBase64Url (s : String) : String :=
  ⟨(s.data.filter (· ≠ '=')).map fun c =>
    if c = '+' then '-' else if c = '/' then '_' else c⟩

/-- TS `base64UrlToBase64`: `- → +`, `_ → /`, re-pad; length `1 mod 4` throws
(`none`). -/
def base64UrlToBase64 (s : String) : Option String :=
  let swapped := s.data.map fun c => if c = '-' then '+' else if c = '_' then '/' else c
  match swapped.length % 4 with
  | 0 => some ⟨swapped⟩
  | 2 => some ⟨swapped ++ ['=', '=']⟩
  | 3 => some ⟨swapped ++ ['=']⟩
  | _ => none

/-- TS `base64ToBase64Ext`: positional remap of each base64 character into the
ASCII-sortable extended alphabet. -/
def base64ToBase64Ext (s : String) : String :=
  ⟨s.data.filterMap fun c => (b64CharIndex c).map fun i => b64ExtAlphabet.getD i '?'⟩

example : uint8ArrayToBase64 [97, 98, 99] = "YWJj" := by decide
example : base64ToUint8Array "YWJj" = some [97, 98, 99] := by decide
example : base64ToUint8Array "YQ==" = some [97] := by decide
example : base64ToUint8Array "!!" = none := by decide
example : base64DecodeLenient "YWJj" = [97, 98, 99] := by decide
example : base64UrlToBase64 (base64ToBase64Url "YQ==") = some "YQ==" := by decide

/-! ## Type models (`crypto/typeModels.ts`) -/

/-- Scalar value type names, as the string constants of `ValueType`. -/
def VTString : String := "String"

/-- TS `ValueType.Number`. -/
def VTNumber : String := "Number"

/-- TS `ValueType.Date`. -/
def VTDate : String := "Date"

/-- TS `ValueType.Boolean`. -/
def VTBoolean : String := "Boolean"

/-- TS `ValueType.Bytes`. -/
def VTBytes : String := "Bytes"

/-- TS `ValueType.CompressedString`. -/
def VTCompressedString : String := "CompressedString"

/-- Per-attribute model `{id, type, encrypted}`. -/
structure ValueModel where
  id : Nat
  type : String
  encrypted : Bool
  deriving DecidableEq, Repr

/-- Per-type model: app, name, wire version, encrypted flag, and the value
table keyed by numeric attribute id (string keys, insertion order). -/
structure TypeModel where
  app : String
  name : String
  version : Nat
  encrypted : Bool
  values : List (String × ValueModel)
  deriving DecidableEq, Repr

/-- TS `Group` (sys 143): unencrypted, for loading the former-keys list. -/
def GROUP : TypeModel :=
  { app := "sys", name := "Group", version := 143, encrypted := false,
    values := [("2273", ⟨2273, VTBytes, false⟩), ("2269", ⟨2269, VTString, false⟩)] }

/-- TS `GroupKey` (sys 143): former key chain elements. -/
def GROUP_KEY : TypeModel :=
  { app := "sys", name := "GroupKey", version := 143, encrypted := false,
    values := [("2261", ⟨2261, VTBytes, false⟩)] }

/-- TS `Group.formerGroupKeys` aggregation attribute id. -/
def GROUP_ATTR_FORMER_GROUP_KEYS : String := "2273"

/-- TS `GroupKey.ownerEncGKey` attribute id. -/
def GROUP_KEY_ATTR_OWNER_ENC_GKEY : String := "2261"

/-- TS `MailboxGroupRoot` (tutanota 102): unencrypted. -/
def MAILBOX_GROUP_ROOT : TypeModel :=
  { app := "tutanota", name := "MailboxGroupRoot", version := 102, encrypted := false,
    values := [("695", ⟨695, VTString, false⟩), ("696", ⟨696, VTString, false⟩),
               ("697", ⟨697, VTNumber, false⟩), ("698", ⟨698, VTString, false⟩)] }

/-- TS `MailBox` (tutanota 102): encrypted. -/
def MAIL_BOX : TypeModel :=
  { app := "tutanota", name := "MailBox", version := 102, encrypted := true,
    values := [("127", ⟨127, VTString, false⟩), ("128", ⟨128, VTString, false⟩),
               ("129", ⟨129, VTNumber, false⟩), ("569", ⟨569, VTDate, false⟩),
               ("590", ⟨590, VTString, false⟩), ("591", ⟨591, VTBytes, false⟩),
               ("1396", ⟨1396, VTNumber, false⟩)] }

/-- TS `MailSet` (tutanota 102): encrypted; name (435) and color (1479) are the
encrypted attributes. -/
def MAIL_SET : TypeModel :=
  { app := "tutanota", name := "MailSet", version := 102, encrypted := true,
    values := [("431", ⟨431, VTString, false⟩), ("432", ⟨432, VTString, false⟩),
               ("433", ⟨433, VTNumber, false⟩), ("434", ⟨434, VTBytes, false⟩),
               ("435", ⟨435, VTString, true⟩), ("436", ⟨436, VTNumber, false⟩),
               ("589", ⟨589, VTString, false⟩), ("1399", ⟨1399, VTNumber, false⟩),
               ("1479", ⟨1479, VTString, true⟩), ("1459", ⟨1459, VTString, false⟩)] }

/-- TS `MailSetEntry` (tutanota 102): unencrypted. -/
def MAIL_SET_ENTRY : TypeModel :=
  { app := "tutanota", name := "MailSetEntry", version := 102, encrypted := false,
    values := [("1452", ⟨1452, VTString, false⟩), ("1456", ⟨1456, VTString, false⟩)] }

/-- TS `Mail` (tutanota 102): encrypted. -/
def MAIL : TypeModel :=
  { app := "tutanota", name := "Mail", version := 102, encrypted := true,
    values := [("99", ⟨99, VTString, false⟩), ("102", ⟨102, VTBytes, false⟩),
               ("105", ⟨105, VTString, true⟩), ("107", ⟨107, VTDate, false⟩),
               ("108", ⟨108, VTNumber, false⟩), ("109", ⟨109, VTBoolean, false⟩),
               ("426", ⟨426, VTBoolean, true⟩), ("466", ⟨466, VTNumber, true⟩),
               ("587", ⟨587, VTString, false⟩), ("617", ⟨617, VTString, true⟩),
               ("866", ⟨866, VTBoolean, true⟩), ("896", ⟨896, VTDate, false⟩),
               ("1021", ⟨1021, VTNumber, false⟩), ("1022", ⟨1022, VTNumber, false⟩),
               ("1120", ⟨1120, VTNumber, true⟩), ("1307", ⟨1307, VTNumber, false⟩),
               ("1346", ⟨1346, VTNumber, true⟩), ("1395", ⟨1395, VTNumber, false⟩),
               ("1677", ⟨1677, VTNumber, true⟩), ("1728", ⟨1728, VTNumber, false⟩),
               ("1769", ⟨1769, VTBoolean, false⟩), ("1784", ⟨1784, VTDate, false⟩)] }

/-- The three owner-attribute ids of a type (`getOwnerAttrs`). -/
structure OwnerAttrs where
  ownerGroup : String
  ownerEncSessionKey : String
  ownerKeyVersion : String
  deriving DecidableEq, Repr

/-- TS `getOwnerAttrs`: owner attribute ids by type name, defaulting to the
`MailBox` ids. -/
def getOwnerAttrs (typeModel : TypeModel) : OwnerAttrs :=
  if typeModel.name = "MailSet" then ⟨"589", "434", "1399"⟩
  else if typeModel.name = "Mail" then ⟨"587", "102", "1395"⟩
  else ⟨"590", "591", "1396"⟩

/-! ## Key chain (`crypto/keyChain.ts`) -/

/-- Association-list read with first-binding-wins (JS `Map.get`). -/
def assocGet {α : Type} (l : List (String × α)) (k : String) : Option α :=
  match l.find? (fun p => p.1 = k) with
  | some p => some p.2
  | none => none

/-- Association-list write: replace in place keeping position, else append
(JS `Map.set` insertion-order semantics). -/
def assocSet {α : Type} (l : List (String × α)) (k : String) (v : α) : List (String × α) :=
  match l with
  | [] => [(k, v)]
  | (k', v') :: rest => if k' = k then (k', v) :: rest else (k', v') :: assocSet rest k v

/-- Per-group cache entry: current version and `version → key` map. -/
structure GroupKeyEntry where
  currentVersion : String
  keys : List (String × List Nat)
  deriving DecidableEq, Repr

/-- The key chain state: `group id → GroupKeyEntry`. -/
structure KeyChainS where
  cache : List (String × GroupKeyEntry)
  deriving DecidableEq, Repr

/-- TS `KeyChain.getGroupKey`. -/
def getGroupKey (kc : KeyChainS) (groupId keyVersion : String) : Option (List Nat) :=
  match assocGet kc.cache groupId with
  | none => none
  | some entry => assocGet entry.keys keyVersion

/-- TS `KeyChain.addGroupKey`: create the entry when missing (with
`currentVersion := keyVersion` and empty key map), then set the key. -/
def addGroupKey (kc : KeyChainS) (groupId keyVersion : String) (key : List Nat) : KeyChainS :=
  match assocGet kc.cache groupId with
  | none =>
    ⟨assocSet kc.cache groupId ⟨keyVersion, assocSet [] keyVersion key⟩⟩
  | some entry =>
    ⟨assocSet kc.cache groupId ⟨entry.currentVersion, assocSet entry.keys keyVersion key⟩⟩

/-- TS `KeyChain.getAvailableKeyVersions`: the known versions, insertion order. -/
def getAvailableKeyVersions (kc : KeyChainS) (groupId : String) : List String :=
  match assocGet kc.cache groupId with
  | none => []
  | some entry => entry.keys.map Prod.fst

/-! ## Crypto primitives (external `@tutao/tutanota-crypto`), as oracles -/

/-- The tutanota-crypto primitives, opaque to this repository. A fallible
primitive returns `none` where the library throws. `decryptKey` is the
authenticated unwrap, `decryptKeyLegacy` is
`decryptKeyUnauthenticatedWithDeviceKeyChain`, `aesDecrypt` the attribute
cipher, `sha256Hash` the digest. Keys and payloads are byte lists
(`keyToUint8Array` / `uint8ArrayToKey` are the identity in this model). -/
structure CryptoOracle where
  decryptKey : List Nat → List Nat → Option (List Nat)
  decryptKeyLegacy : List Nat → List Nat → Option (List Nat)
  aesDecrypt : List Nat → List Nat → Option (List Nat)
  sha256Hash : List Nat → List Nat

/-- Session-key unwrap methods, as reported to `onSessionKeyAttempt`. -/
inductive SKMethod where
  | m256legacy
  | m256
  | m128
  deriving DecidableEq, Repr

/-- Uncaught TypeScript runtime errors of the embedded code paths. -/
inductive RErr where
  | invalidBase64
  | invalidKeyVersion
  | httpFailure
  deriving DecidableEq, Repr

/-! ## Session-key resolution (`crypto/decryptInstance.ts`, `resolveSessionKey`) -/

/-- The key version `resolveSessionKey` looks up:
`tryKeyVersion != null ? tryKeyVersion : String(ownerKeyVersion ?? "")`. -/
def resolvedKeyVersion (inst : ServerInstance) (typeModel : TypeModel)
    (tryKeyVersion : Option String) : String :=
  match tryKeyVersion with
  | some v => v
  | none =>
    let ownerKeyVersion := inst.getAttr (getOwnerAttrs typeModel).ownerKeyVersion
    jsString (if ownerKeyVersion.isNullish then .str "" else ownerKeyVersion)

/-- Normalization of `ownerEncSessionKey` to bytes: a `Uint8Array` passes
through, anything else is stringified and strictly base64-decoded (a decode
throw escapes `resolveSessionKey`). -/
def normalizeEncSessionKey : JsValue → Option (List Nat)
  | .bytes b => some b
  | v => base64ToUint8Array (jsString v)

/-- TS `resolveSessionKey`: resolve the session key for an encrypted instance.
Returns the TypeScript result (`Except` for an uncaught throw, `Option` for
the `null` returns) paired with the `onSessionKeyAttempt` call trace
`(method, success)` in order. -/
def resolveSessionKey (o : CryptoOracle) (kc : KeyChainS) (inst : ServerInstance)
    (typeModel : TypeModel) (tryKeyVersion : Option String) :
    Except RErr (Option (List Nat)) × List (SKMethod × Bool) :=
  if !typeModel.encrypted then (.ok none, [])
  else
    let attrs := getOwnerAttrs typeModel
    let ownerGroup := inst.getAttr attrs.ownerGroup
    let ownerEncSessionKey := inst.getAttr attrs.ownerEncSessionKey
    if ownerGroup.isNullish || ownerEncSessionKey.isNullish then (.ok none, [])
    else
      let groupId := jsString ownerGroup
      let keyVersion := resolvedKeyVersion inst typeModel tryKeyVersion
      match getGroupKey kc groupId keyVersion with
      | none => (.ok none, [])
      | some groupKey =>
        match normalizeEncSessionKey ownerEncSessionKey with
        | none => (.error .invalidBase64, [])
        | some encKey =>
          let groupKey128 := groupKey.take 16
          if groupKey.length = 16 then
            match o.decryptKey groupKey128 encKey with
            | some sk => (.ok (some sk), [(.m128, true)])
            | none =>
              match o.decryptKeyLegacy groupKey encKey with
              | some sk => (.ok (some sk), [(.m128, false), (.m256legacy, true)])
              | none =>
                match o.decryptKey groupKey encKey with
                | some sk => (.ok (some sk), [(.m128, false), (.m256legacy, false), (.m256, true)])
                | none => (.ok none, [(.m128, false), (.m256legacy, false), (.m256, false)])
          else
            match o.decryptKeyLegacy groupKey encKey with
            | some sk => (.ok (some sk), [(.m256legacy, true)])
            | none =>
              match o.decryptKey groupKey encKey with
              | some sk => (.ok (some sk), [(.m256legacy, false), (.m256, true)])
              | none =>
                match o.decryptKey groupKey128 encKey with
                | some sk => (.ok (some sk), [(.m256legacy, false), (.m256, false), (.m128, true)])
                | none => (.ok none, [(.m256legacy, false), (.m256, false), (.m128, false)])

/-- Spec-side fallback ladder: run attempts in order, stop at the first
success, reporting every attempt made. -/
def ladderFirstSuccess : List (SKMethod × Option (List Nat)) →
    Option (List Nat) × List (SKMethod × Bool)
  | [] => (none, [])
  | (m, some sk) :: _ => (some sk, [(m, true)])
  | (m, none) :: rest =>
    let r := ladderFirstSuccess rest
    (r.1, (m, false) :: r.2)

/-! ## Instance decryption (`crypto/decryptInstance.ts`) -/

/-- The `string | Uint8Array | null` input of `convertDbToJsType`. -/
inductive DbValue where
  | str (s : String)
  | bytes (bs : List Nat)
  | null

/-- JS `Number(str)` as a JS value: an integer or NaN. -/
def jsNumberValue (s : String) : JsValue :=
  match jsNumberOfString s with
  | some n => .num n
  | none => .nan

/-- TS `convertDbToJsType`: coerce a decrypted value to the declared scalar
type. -/
def convertDbToJsType (type : String) (decryptedValue : DbValue) : JsValue :=
  match decryptedValue with
  | .null => .null
  | dv =>
    if type = VTBytes then
      match dv with
      | .str s => .str s
      | .bytes b => .bytes b
      | .null => .null
    else
      let str := match dv with
        | .str s => s
        | .bytes b => utf8Decode b
        | .null => ""
      if type = VTString ∨ type = VTCompressedString then .str str
      else if type = VTNumber then (if str = "" then .num 0 else jsNumberValue str)
      else if type = VTDate then .date (jsParseInt str)
      else if type = VTBoolean then .bool (str ≠ "0")
      else .str str

/-- TS `valueToDefault`: the zero value of a declared scalar type. -/
def valueToDefault (type : String) : JsValue :=
  if type = VTString ∨ type = VTCompressedString then .str ""
  else if type = VTNumber then .num 0
  else if type = VTBytes then .bytes []
  else if type = VTDate then .date (some 0)
  else if type = VTBoolean then .bool false
  else .str ""

/-- JS strict equality test `v === ""`. -/
def JsValue.isEmptyString : JsValue → Bool
  | .str "" => true
  | _ => false

/-- The final scalar conversion of decrypted bytes
(`decryptParsedInstance` lines routing `Bytes`/`CompressedString` before
`convertDbToJsType`). -/
def convertDecryptedBytes (type : String) (decryptedBytes : List Nat) : JsValue :=
  if type = VTBytes then .bytes decryptedBytes
  else if type = VTCompressedString then .str (utf8Decode decryptedBytes)
  else convertDbToJsType type (.str (utf8Decode decryptedBytes))

/-- The per-attribute `try`-block body of `decryptParsedInstance`: the stored
value plus whether `onDecryptFailure` / `onDecryptFallback` fired, or the
uncaught error headed for the outer `catch`. The inner `try/catch` around the
two `aesDecrypt` attempts is resolved here. -/
def decryptAttr (o : CryptoOracle) (sessionKey sessionKey128 : Option (List Nat))
    (encryptedValue : JsValue) (vm : ValueModel) : Except RErr (JsValue × Bool × Bool) :=
  if !vm.encrypted then .ok (encryptedValue, false, false)
  else
    match sessionKey with
    | none => .ok (valueToDefault vm.type, false, false)
    | some sk =>
      if encryptedValue.isNullish || encryptedValue.isEmptyString then
        .ok (valueToDefault vm.type, false, false)
      else
        match base64ToUint8Array (jsString encryptedValue) with
        | none => .error .invalidBase64
        | some bytes =>
          match o.aesDecrypt sk bytes with
          | some decryptedBytes => .ok (convertDecryptedBytes vm.type decryptedBytes, false, false)
          | none =>
            match sessionKey128 with
            | some sk128 =>
              match o.aesDecrypt sk128 bytes with
              | some decryptedBytes =>
                .ok (convertDecryptedBytes vm.type decryptedBytes, false, true)
              | none => .ok (valueToDefault vm.type, true, false)
            | none => .ok (valueToDefault vm.type, true, false)

/-- Output of `decryptParsedInstance`: the decrypted instance plus the
`onDecryptFailure` and `onDecryptFallback` call traces (value ids, in call
order). -/
structure DecOut where
  result : ServerInstance
  failures : List String
  fallbacks : List String

/-- One iteration of the `decryptParsedInstance` value loop: run the attr
body, store its value (outer `catch`: store the zero value and report the
failure). -/
def decryptStep (o : CryptoOracle) (sessionKey sessionKey128 : Option (List Nat))
    (encryptedInstance : ServerInstance) (acc : DecOut) (kv : String × ValueModel) : DecOut :=
  match decryptAttr o sessionKey sessionKey128 (encryptedInstance.getAttr kv.1) kv.2 with
  | .ok (v, failed, usedFallback) =>
    { result := acc.result.setAttr kv.1 v
      failures := acc.failures ++ (if failed then [kv.1] else [])
      fallbacks := acc.fallbacks ++ (if usedFallback then [kv.1] else []) }
  | .error _ =>
    { result := acc.result.setAttr kv.1 (valueToDefault kv.2.type)
      failures := acc.failures ++ [kv.1]
      fallbacks := acc.fallbacks }

/-- One iteration of the copy-through loop of `decryptParsedInstance`: a wire
key in the value table is left alone, any other wire key is copied through
unchanged. -/
def copyStep (values : List (String × ValueModel)) (encryptedInstance : ServerInstance)
    (r : ServerInstance) (kv : String × JsValue) : ServerInstance :=
  if values.any (fun p => p.1 = kv.1) then r
  else r.setAttr kv.1 (encryptedInstance.getAttr kv.1)

/-- TS `decryptParsedInstance`: decrypt every attribute in the value table, then
copy through every wire key not in the value table. -/
def decryptParsedInstance (o : CryptoOracle) (typeModel : TypeModel)
    (encryptedInstance : ServerInstance) (sessionKey : Option (List Nat)) : DecOut :=
  let sessionKey128 := sessionKey.map (List.take 16)
  let afterValues :=
    typeModel.values.foldl (decryptStep o sessionKey sessionKey128 encryptedInstance) ⟨[], [], []⟩
  let finalResult :=
    encryptedInstance.foldl (copyStep typeModel.values encryptedInstance) afterValues.result
  { afterValues with result := finalResult }

/-! ## Byte helpers (`utils/bytes.ts`) -/

/-- TS `toUint8Array`: null → empty, `Uint8Array` → itself, string → lenient
base64 decode (`Buffer.from(s, "base64")`), array of numbers → bytes,
anything else → empty. Never throws. -/
def toUint8Array : JsValue → List Nat
  | .null => []
  | .undefinedV => []
  | .bytes bs => bs
  | .str s => base64DecodeLenient s
  | .arr vs => vs.map (fun v => match v with | .num n => (n % 256).toNat | _ => 0)
  | _ => []

/-- TS `unwrapSingleElementArray`: nullish → null, one-element array → its
element, otherwise unchanged. -/
def unwrapSingleElementArray (v : JsValue) : JsValue :=
  if v.isNullish then .null
  else match v with
    | .arr [x] => x
    | w => w

/-! ## Former-key walker (`crypto/formerGroupKey.ts`) -/

/-- TS `parseKeyVersion`: `Number(s)` must be a non-negative integer, else the
function throws. -/
def parseKeyVersion (s : String) : Except RErr Nat :=
  match jsNumberOfString s with
  | some n => if 0 ≤ n then .ok n.toNat else .error .invalidKeyVersion
  | none => .error .invalidKeyVersion

/-- TS `stringToCustomId`: base64url of base64 of the UTF-8 bytes. -/
def stringToCustomId (s : String) : String :=
  base64ToBase64Url (uint8ArrayToBase64 (utf8Encode s))

/-- The REST loads the walker can issue, for frame reasoning. -/
inductive HttpCall where
  | entity (typeName id : String)
  | range (typeName listId start : String) (count : Nat) (reverse : Bool)
  deriving DecidableEq, Repr

/-- The HTTP accessor pair (`loadEntity` / `loadRange`), keyed by type name;
`none` models a failed request (which throws in the source). -/
structure EntityOracle where
  loadEntity : String → String → Option ServerInstance
  loadRange : String → String → String → Nat → Bool → Option (List ServerInstance)

/-- The former-key walk loop (`for (const item of formerKeysRaw)`): a link
with a nullish `ownerEncGKey`, or one normalizing to zero bytes, is skipped;
a failed `decryptKey` aborts with null (`none`). -/
def walkLinks (o : CryptoOracle) : List Nat → List ServerInstance → Option (List Nat)
  | currentKey, [] => some currentKey
  | currentKey, item :: rest =>
    let ownerEncGKey := item.getAttr GROUP_KEY_ATTR_OWNER_ENC_GKEY
    if ownerEncGKey.isNullish then walkLinks o currentKey rest
    else
      let encBytes := toUint8Array ownerEncGKey
      if encBytes.length = 0 then walkLinks o currentKey rest
      else
        match o.decryptKey currentKey encBytes with
        | some k => walkLinks o k rest
        | none => none

/-- The former-keys list-id extraction of `loadFormerGroupKey`: read the
`formerGroupKeys` aggregation (null check, single-element-array unwrap,
must be a plain object), then its `2269` attribute (a one-element array is
indexed at 0), which must be a string. Each `none` is a `return null` of the
source sharing the same observable outcome. -/
def formerKeysListId (groupRaw : ServerInstance) : Option String :=
  let formerRef := groupRaw.getAttr GROUP_ATTR_FORMER_GROUP_KEYS
  if formerRef.isNullish then none
  else
    match unwrapSingleElementArray formerRef with
    | .obj refFields =>
      let listAttr := ServerInstance.getAttr refFields "2269"
      let listId := match listAttr with
        | .arr vs => vs.headD .undefinedV
        | v => v
      match listId with
      | .str lid => some lid
      | _ => none
    | _ => none

/-- TS `loadFormerGroupKey`: walk the former-key chain down from
`currentKeyVersion` to `targetKeyVersion`. Besides the TypeScript result,
returns the list of HTTP calls issued, in order. -/
def loadFormerGroupKey (o : CryptoOracle) (eo : EntityOracle) (kc : KeyChainS)
    (groupId currentKeyVersion targetKeyVersion : String) :
    Except RErr (Option (List Nat)) × List HttpCall :=
  match parseKeyVersion currentKeyVersion with
  | .error e => (.error e, [])
  | .ok currentVer =>
    match parseKeyVersion targetKeyVersion with
    | .error e => (.error e, [])
    | .ok targetVer =>
      if currentVer ≤ targetVer then (.ok (getGroupKey kc groupId targetKeyVersion), [])
      else
        match getGroupKey kc groupId currentKeyVersion with
        | none => (.ok none, [])
        | some currentKey =>
          let entityCall := HttpCall.entity GROUP.name groupId
          match eo.loadEntity GROUP.name groupId with
          | none => (.error .httpFailure, [entityCall])
          | some groupRaw =>
            match formerKeysListId groupRaw with
            | none => (.ok none, [entityCall])
            | some lid =>
              let startId := stringToCustomId (toString currentVer)
              let count := currentVer - targetVer
              let rangeCall := HttpCall.range GROUP_KEY.name lid startId count true
              match eo.loadRange GROUP_KEY.name lid startId count true with
              | none => (.error .httpFailure, [entityCall, rangeCall])
              | some formerKeysRaw =>
                (.ok (walkLinks o currentKey formerKeysRaw), [entityCall, rangeCall])

/-- One iteration of the folders-list former-key pre-pass (`cli.ts`): skip a
version that is already cached, else walk and, on success, insert the key. -/
def formerKeyPrePassStep (o : CryptoOracle) (eo : EntityOracle) (kc : KeyChainS)
    (mailGroupId currentVersion keyVersion : String) :
    Except RErr KeyChainS × List HttpCall :=
  if (getGroupKey kc mailGroupId keyVersion).isSome then (.ok kc, [])
  else
    match loadFormerGroupKey o eo kc mailGroupId currentVersion keyVersion with
    | (.ok (some formerKey), calls) => (.ok (addGroupKey kc mailGroupId keyVersion formerKey), calls)
    | (.ok none, calls) => (.ok kc, calls)
    | (.error e, calls) => (.error e, calls)

/-! ## Login (`auth/login.ts`) -/

/-- TS `getSessionIdFromAccessToken`: base64url-decode the token, re-encode the
first nine bytes as base64-ext (list id), SHA-256 the rest and base64url the
digest (element id). `none` models the decoding throw. -/
def getSessionIdFromAccessToken (sha256Hash : List Nat → List Nat) (accessToken : String) :
    Option (String × String) :=
  match base64UrlToBase64 accessToken with
  | none => none
  | some b64 =>
    match base64ToUint8Array b64 with
    | none => none
    | some bytes =>
      let listId := base64ToBase64Ext (uint8ArrayToBase64 (bytes.take 9))
      let elementIdHash := sha256Hash (bytes.drop 9)
      some (listId, base64ToBase64Url (uint8ArrayToBase64 elementIdHash))

/-- The normalized session-creation response fields `login` consumes
(a missing `challenges` reads as the empty list). -/
structure CreateSessionReturn where
  challenges : List JsValue
  accessToken : String
  user : String

/-- TS `login`'s failure kinds: the 2FA rejection throw and the session-id
derivation throw. -/
inductive LoginError where
  | twoFactorRequired
  | invalidAccessToken
  deriving DecidableEq, Repr

/-- TS `LoginResult`. -/
structure LoginResult where
  accessToken : String
  userId : String
  sessionId : String × String
  deriving DecidableEq, Repr

/-- Observable milestones of the login flow, for frame reasoning: deriving a
session id, and the caller's key-chain construction. -/
inductive LoginEvent where
  | derivedSessionId
  | createdKeyChain
  deriving DecidableEq, Repr

/-- The tail of `login` after the session-creation response arrives: reject
when `challenges` is non-empty, else derive the session id and return.
Events record milestones in execution order. -/
def loginFromSessionResponse (sha256Hash : List Nat → List Nat) (res : CreateSessionReturn) :
    Except LoginError LoginResult × List LoginEvent :=
  if res.challenges.length > 0 then (.error .twoFactorRequired, [])
  else
    match getSessionIdFromAccessToken sha256Hash res.accessToken with
    | none => (.error .invalidAccessToken, [.derivedSessionId])
    | some sessionId => (.ok ⟨res.accessToken, res.user, sessionId⟩, [.derivedSessionId])

/-- The caller's sequence: `login`, then (on success) key-chain
construction from the passphrase key — the first point at which the key
chain exists at all. -/
def loginThenUnlock (sha256Hash : List Nat → List Nat) (res : CreateSessionReturn) :
    Except LoginError LoginResult × List LoginEvent :=
  match loginFromSessionResponse sha256Hash res with
  | (.error e, evs) => (.error e, evs)
  | (.ok r, evs) => (.ok r, evs ++ [.createdKeyChain])

/-! ## Mailbox reader version-retry loop (`cli.ts`, folders/mails list) -/

/-- TS `versionsToTry`: the key versions the retry loop iterates, exactly as the
source computes them. -/
def versionsToTry (availableVersions : List String) (instanceVersion : String) : List String :=
  if availableVersions.length ≤ 1 then [instanceVersion]
  else instanceVersion :: availableVersions.filter (fun v => v ≠ instanceVersion)

/-- The per-instance retry loop body over the version list: resolve the
session key at each version (a `null` key skips the version), decrypt, stop
unless the name (435) or color (1479) attribute reported failure; `dec`
keeps the last decryption when every later version is skipped. `.ok none`
means `dec` was never assigned. -/
def folderLoop (o : CryptoOracle) (kc : KeyChainS) (safe : ServerInstance) :
    List String → Except RErr (Option ServerInstance)
  | [] => .ok none
  | tryVer :: rest =>
    match (resolveSessionKey o kc safe MAIL_SET (some tryVer)).1 with
    | .error e => .error e
    | .ok none => folderLoop o kc safe rest
    | .ok (some sk) =>
      let out := decryptParsedInstance o MAIL_SET safe (some sk)
      if out.failures.contains "435" || out.failures.contains "1479" then
        match folderLoop o kc safe rest with
        | .error e => .error e
        | .ok (some d) => .ok (some d)
        | .ok none => .ok (some out.result)
      else .ok (some out.result)

/-- TS `String((safe["1399"] ?? "") as string)`: the instance's own key
version. -/
def mailSetInstanceVersion (safe : ServerInstance) : String :=
  let v1399 := safe.getAttr "1399"
  jsString (if v1399.isNullish then .str "" else v1399)

/-- The whole per-element decryption of the folders/mails list actions:
compute the version order, run the retry loop, and fall back to a null
session key when no version assigned `dec`. -/
def foldersDecryptInstance (o : CryptoOracle) (kc : KeyChainS)
    (availableVersions : List String) (safe : ServerInstance) : Except RErr ServerInstance :=
  match folderLoop o kc safe (versionsToTry availableVersions (mailSetInstanceVersion safe)) with
  | .error e => .error e
  | .ok (some dec) => .ok dec
  | .ok none => .ok (decryptParsedInstance o MAIL_SET safe none).result

/-! ## Helper lemmas -/

theorem getAttr_nil (k' : String) : ServerInstance.getAttr [] k' = .undefinedV := rfl

theorem getAttr_cons (k0 : String) (v0 : JsValue) (tl : List (String × JsValue)) (k' : String) :
    ServerInstance.getAttr ((k0, v0) :: tl) k'
      = if k0 = k' then v0 else ServerInstance.getAttr tl k' := by
  by_cases h : k0 = k' <;> simp [ServerInstance.getAttr, List.find?, h]

theorem assocGet_nil {α : Type} (k' : String) : assocGet ([] : List (String × α)) k' = none := rfl

theorem assocGet_cons {α : Type} (k0 : String) (v0 : α) (tl : List (String × α)) (k' : String) :
    assocGet ((k0, v0) :: tl) k' = if k0 = k' then some v0 else assocGet tl k' := by
  by_cases h : k0 = k' <;> simp [assocGet, List.find?, h]

theorem getAttr_setAttr : ∀ (r : List (String × JsValue)) (k k' : String) (v : JsValue),
    ServerInstance.getAttr (ServerInstance.setAttr r k v) k'
      = if k' = k then v else ServerInstance.getAttr r k'
  | [], k, k', v => by
    by_cases h : k' = k
    · subst h; simp [ServerInstance.setAttr, ServerInstance.getAttr]
    · have h2 : k ≠ k' := fun e => h e.symm
      simp [ServerInstance.setAttr, ServerInstance.getAttr, h, h2]
  | (k0, v0) :: tl, k, k', v => by
    by_cases h0 : k0 = k
    · subst h0
      by_cases h : k' = k0
      · subst h; simp [ServerInstance.setAttr, getAttr_cons]
      · have h2 : k0 ≠ k' := fun e => h e.symm
        simp [ServerInstance.setAttr, getAttr_cons, h, h2]
    · by_cases h1 : k0 = k'
      · subst h1
        simp [ServerInstance.setAttr, getAttr_cons, h0]
      · simp [ServerInstance.setAttr, getAttr_cons, h0, h1, getAttr_setAttr tl k k' v]

theorem assocGet_assocSet {α : Type} : ∀ (l : List (String × α)) (k k' : String) (v : α),
    assocGet (assocSet l k v) k' = if k' = k then some v else assocGet l k'
  | [], k, k', v => by
    by_cases h : k' = k
    · subst h; simp [assocSet, assocGet]
    · have h2 : k ≠ k' := fun e => h e.symm
      simp [assocSet, assocGet, h, h2]
  | (k0, v0) :: tl, k, k', v => by
    by_cases h0 : k0 = k
    · subst h0
      by_cases h : k' = k0
      · subst h; simp [assocSet, assocGet_cons]
      · have h2 : k0 ≠ k' := fun e => h e.symm
        simp [assocSet, assocGet_cons, h, h2]
    · by_cases h1 : k0 = k'
      · subst h1
        simp [assocSet, assocGet_cons, h0]
      · simp [assocSet, assocGet_cons, h0, h1, assocGet_assocSet tl k k' v]

/-- Inserting a key and looking it up at the same `(group, version)` finds
exactly the inserted key. -/
theorem getGroupKey_addGroupKey (kc : KeyChainS) (g v : String) (key : List Nat) :
    getGroupKey (addGroupKey kc g v key) g v = some key := by
  cases h : assocGet kc.cache g with
  | none => simp [addGroupKey, h, getGroupKey, assocGet_assocSet]
  | some entry => simp [addGroupKey, h, getGroupKey, assocGet_assocSet]

/-- The value `decryptParsedInstance` stores for one attribute of the value
table (the outer `catch` collapses an uncaught attr-body error to the zero
value). -/
def attrStoredValue (o : CryptoOracle) (sk sk128 : Option (List Nat)) (ev : JsValue)
    (vm : ValueModel) : JsValue :=
  match decryptAttr o sk sk128 ev vm with
  | .ok (v, _, _) => v
  | .error _ => valueToDefault vm.type

/-- Whether `onDecryptFailure` fires for one attribute of the value table. -/
def attrFails (o : CryptoOracle) (sk sk128 : Option (List Nat)) (ev : JsValue)
    (vm : ValueModel) : Bool :=
  match decryptAttr o sk sk128 ev vm with
  | .ok (_, failed, _) => failed
  | .error _ => true

theorem foldl_decryptStep_getAttr_notmem (o : CryptoOracle) (sk sk128 : Option (List Nat))
    (inst : ServerInstance) :
    ∀ (l : List (String × ValueModel)) (acc : DecOut) (id : String),
      (∀ kv ∈ l, kv.1 ≠ id) →
      ServerInstance.getAttr (l.foldl (decryptStep o sk sk128 inst) acc).result id
        = acc.result.getAttr id
  | [], _, _, _ => rfl
  | kv :: tl, acc, id, h => by
    have hkv : kv.1 ≠ id := h kv (List.mem_cons_self _ _)
    have hid : id ≠ kv.1 := fun e => hkv e.symm
    rw [List.foldl_cons,
        foldl_decryptStep_getAttr_notmem o sk sk128 inst tl _ id
          (fun x hx => h x (List.mem_cons_of_mem _ hx))]
    unfold decryptStep
    cases hda : decryptAttr o sk sk128 (inst.getAttr kv.1) kv.2 with
    | ok t => obtain ⟨v, f, fb⟩ := t; simp [getAttr_setAttr, hid]
    | error e => simp [getAttr_setAttr, hid]

theorem foldl_decryptStep_getAttr_mem (o : CryptoOracle) (sk sk128 : Option (List Nat))
    (inst : ServerInstance) :
    ∀ (l : List (String × ValueModel)) (acc : DecOut) (id : String) (vm : ValueModel),
      (l.map Prod.fst).Nodup → (id, vm) ∈ l →
      ServerInstance.getAttr (l.foldl (decryptStep o sk sk128 inst) acc).result id
        = attrStoredValue o sk sk128 (inst.getAttr id) vm
  | kv :: tl, acc, id, vm, hnd, hmem => by
    rcases List.mem_cons.mp hmem with heq | htl
    · subst heq
      have hnotin : ∀ kv' ∈ tl, kv'.1 ≠ id := by
        intro kv' hkv' he
        have : id ∈ tl.map Prod.fst := he ▸ List.mem_map_of_mem Prod.fst hkv'
        exact (List.nodup_cons.mp (by simpa using hnd)).1 this
      rw [List.foldl_cons, foldl_decryptStep_getAttr_notmem o sk sk128 inst tl _ id hnotin]
      unfold decryptStep attrStoredValue
      cases hda : decryptAttr o sk sk128 (inst.getAttr id) vm with
      | ok t => obtain ⟨v, f, fb⟩ := t; simp [getAttr_setAttr]
      | error e => simp [getAttr_setAttr]
    · exact foldl_decryptStep_getAttr_mem o sk sk128 inst tl _ id vm
        (by simpa using (List.nodup_cons.mp (by simpa using hnd)).2) htl

theorem foldl_decryptStep_failures (o : CryptoOracle) (sk sk128 : Option (List Nat))
    (inst : ServerInstance) :
    ∀ (l : List (String × ValueModel)) (acc : DecOut),
      (l.foldl (decryptStep o sk sk128 inst) acc).failures
        = acc.failures
          ++ (l.filter (fun kv => attrFails o sk sk128 (inst.getAttr kv.1) kv.2)).map Prod.fst
  | [], acc => by simp
  | kv :: tl, acc => by
    rw [List.foldl_cons, foldl_decryptStep_failures o sk sk128 inst tl _]
    unfold decryptStep
    cases hda : decryptAttr o sk sk128 (inst.getAttr kv.1) kv.2 with
    | ok t =>
      obtain ⟨v, f, fb⟩ := t
      cases f <;> simp [List.filter_cons, attrFails, hda, List.append_assoc]
    | error e => simp [List.filter_cons, attrFails, hda, List.append_assoc]

theorem foldl_copyStep_getAttr_inValues (values : List (String × ValueModel))
    (inst : ServerInstance) :
    ∀ (l : List (String × JsValue)) (r : ServerInstance) (k : String),
      values.any (fun p => p.1 = k) = true →
      ServerInstance.getAttr (l.foldl (copyStep values inst) r) k = r.getAttr k
  | [], _, _, _ => rfl
  | kv :: tl, r, k, hk => by
    rw [List.foldl_cons, foldl_copyStep_getAttr_inValues values inst tl _ k hk]
    unfold copyStep
    by_cases hin : values.any (fun p => p.1 = kv.1)
    · simp [hin]
    · have hne : k ≠ kv.1 := by
        intro he; exact hin (he ▸ hk)
      simp [hin, getAttr_setAttr, hne]

theorem foldl_copyStep_getAttr_stable (values : List (String × ValueModel))
    (inst : ServerInstance) :
    ∀ (l : List (String × JsValue)) (r : ServerInstance) (k : String),
      r.getAttr k = inst.getAttr k →
      ServerInstance.getAttr (l.foldl (copyStep values inst) r) k = inst.getAttr k
  | [], _, _, h => h
  | kv :: tl, r, k, h => by
    rw [List.foldl_cons]
    refine foldl_copyStep_getAttr_stable values inst tl _ k ?_
    unfold copyStep
    by_cases hin : values.any (fun p => p.1 = kv.1)
    · simpa [hin] using h
    · by_cases he : k = kv.1
      · subst he; simp [hin, getAttr_setAttr]
      · simp [hin, getAttr_setAttr, he, h]

theorem foldl_copyStep_getAttr_mem (values : List (String × ValueModel))
    (inst : ServerInstance) :
    ∀ (l : List (String × JsValue)) (r : ServerInstance) (k : String),
      (∃ v, (k, v) ∈ l) →
      values.any (fun p => p.1 = k) = false →
      ServerInstance.getAttr (l.foldl (copyStep values inst) r) k = inst.getAttr k
  | kv :: tl, r, k, ⟨v, hmem⟩, hk => by
    rcases List.mem_cons.mp hmem with heq | htl
    · have hkv : kv.1 = k := by rw [← heq]
      rw [List.foldl_cons]
      refine foldl_copyStep_getAttr_stable values inst tl _ k ?_
      unfold copyStep
      rw [hkv, hk]
      simp [getAttr_setAttr]
    · exact foldl_copyStep_getAttr_mem values inst tl _ k ⟨v, htl⟩ hk

/-! ## Claim theorems -/

/-- C4: for every type model `T` and wire instance `inst`,
`decryptParsedInstance T inst None` sets every encrypted attribute of `T` to
the zero value of its declared scalar type, copies every unencrypted
attribute of `T` through unchanged, and copies through unchanged every wire
key of `inst` not in `T`'s value table. (A JS `Record` cannot repeat keys,
hence the nodup hypothesis on the value table.) -/
theorem c4_null_key_frame (o : CryptoOracle) (T : TypeModel) (inst : List (String × JsValue))
    (hnd : (T.values.map Prod.fst).Nodup) :
    (∀ id vm, (id, vm) ∈ T.values →
      ServerInstance.getAttr (decryptParsedInstance o T inst none).result id
        = if vm.encrypted then valueToDefault vm.type else ServerInstance.getAttr inst id)
    ∧ (∀ k v, (k, v) ∈ inst → T.values.any (fun p => p.1 = k) = false →
      ServerInstance.getAttr (decryptParsedInstance o T inst none).result k
        = ServerInstance.getAttr inst k) := by
  constructor
  · intro id vm hmem
    have hany : T.values.any (fun p => p.1 = id) = true := by
      apply List.any_eq_true.mpr
      exact ⟨(id, vm), hmem, by simp⟩
    unfold decryptParsedInstance
    rw [foldl_copyStep_getAttr_inValues T.values inst inst _ id hany]
    rw [foldl_decryptStep_getAttr_mem o none (Option.map (List.take 16) none) inst
          T.values _ id vm hnd hmem]
    unfold attrStoredValue decryptAttr
    cases hvm : vm.encrypted <;> simp
  · intro k v hmem hnotin
    unfold decryptParsedInstance
    exact foldl_copyStep_getAttr_mem T.values inst inst _ k ⟨v, hmem⟩ hnotin

/-- C4 witness: a concrete `MailSet` wire instance decrypted with a null
session key — the encrypted name (435) becomes the empty string, the
unencrypted id (431) is copied, and the wire key 999 outside the value table
is copied. -/
theorem c4_null_key_frame_witness :
    ServerInstance.getAttr
        (decryptParsedInstance ⟨fun _ _ => none, fun _ _ => none, fun _ _ => none, fun _ => []⟩
          MAIL_SET [("431", .str "folder-id"), ("435", .str "enc"), ("999", .str "extra")]
          none).result "435"
      = valueToDefault VTString
    ∧ ServerInstance.getAttr
        (decryptParsedInstance ⟨fun _ _ => none, fun _ _ => none, fun _ _ => none, fun _ => []⟩
          MAIL_SET [("431", .str "folder-id"), ("435", .str "enc"), ("999", .str "extra")]
          none).result "431"
      = .str "folder-id"
    ∧ ServerInstance.getAttr
        (decryptParsedInstance ⟨fun _ _ => none, fun _ _ => none, fun _ _ => none, fun _ => []⟩
          MAIL_SET [("431", .str "folder-id"), ("435", .str "enc"), ("999", .str "extra")]
          none).result "999"
      = .str "extra" := by
  refine ⟨?_, ?_, ?_⟩
  · exact (c4_null_key_frame _ MAIL_SET _ (by decide)).1 "435" ⟨435, VTString, true⟩ (by decide)
  · exact (c4_null_key_frame _ MAIL_SET _ (by decide)).1 "431" ⟨431, VTString, false⟩ (by decide)
  · exact (c4_null_key_frame _ MAIL_SET
      [("431", .str "folder-id"), ("435", .str "enc"), ("999", .str "extra")] (by decide)).2
      "999" (.str "extra") (by simp) (by decide)

/-- Modelled from the spec: the server-side wire stringification of the
scalar zero values before encryption — the empty string for the string
types, `"0"` for numbers, the epoch date (0 ms) and `false` (encoded `"0"`),
and the empty byte string for `Bytes`. The encrypting direction is not part
of this repository; only its shape is fixed by the spec's coercion rules. -/
def stringifyZeroValue (type : String) : String :=
  if type = VTNumber then "0"
  else if type = VTDate then "0"
  else if type = VTBoolean then "0"
  else ""

/-- C5: for every scalar value type, coercing the UTF-8 bytes of the
stringified zero value yields the zero value again. -/
theorem c5_zero_value_roundtrip :
    convertDbToJsType VTString (.bytes (utf8Encode (stringifyZeroValue VTString)))
      = valueToDefault VTString
    ∧ convertDbToJsType VTNumber (.bytes (utf8Encode (stringifyZeroValue VTNumber)))
      = valueToDefault VTNumber
    ∧ convertDbToJsType VTDate (.bytes (utf8Encode (stringifyZeroValue VTDate)))
      = valueToDefault VTDate
    ∧ convertDbToJsType VTBoolean (.bytes (utf8Encode (stringifyZeroValue VTBoolean)))
      = valueToDefault VTBoolean
    ∧ convertDbToJsType VTBytes (.bytes (utf8Encode (stringifyZeroValue VTBytes)))
      = valueToDefault VTBytes
    ∧ convertDbToJsType VTCompressedString (.bytes (utf8Encode (stringifyZeroValue VTCompressedString)))
      = valueToDefault VTCompressedString :=
  ⟨rfl, rfl, rfl, rfl, rfl, rfl⟩

/-- C8: when the parsed current version is at most the parsed target
version, the former-key walker issues no HTTP call at all and returns the
cached key at `(group, target)` (or `None` when missing). -/
theorem c8_walker_no_http (o : CryptoOracle) (eo : EntityOracle) (kc : KeyChainS)
    (groupId currentKeyVersion targetKeyVersion : String) (cur tgt : Nat)
    (hc : parseKeyVersion currentKeyVersion = .ok cur)
    (ht : parseKeyVersion targetKeyVersion = .ok tgt)
    (hle : cur ≤ tgt) :
    loadFormerGroupKey o eo kc groupId currentKeyVersion targetKeyVersion
      = (.ok (getGroupKey kc groupId targetKeyVersion), []) := by
  unfold loadFormerGroupKey
  rw [hc, ht]
  simp [hle]

/-- C8 witness: equal current and target version `"1"` on an empty key
chain — no HTTP call, `None` result. -/
theorem c8_walker_no_http_witness :
    loadFormerGroupKey ⟨fun _ _ => none, fun _ _ => none, fun _ _ => none, fun _ => []⟩
        ⟨fun _ _ => none, fun _ _ _ _ _ => none⟩ ⟨[]⟩ "g" "1" "1"
      = (.ok none, []) :=
  c8_walker_no_http _ _ _ "g" "1" "1" 1 1 rfl rfl (by decide)

/-- C9: `decryptParsedInstance` is total. For every type model, wire
instance and session key (including `none`), every attribute of the value
table is assigned the (total) per-attribute outcome `attrStoredValue` — no
per-attribute error escapes; when the attribute body raises (e.g. invalid
base64), the stored value is the type's zero value and the failure callback
fired for that attribute; and the `onDecryptFailure` trace is exactly the
attributes whose decryption failed, in table order. -/
theorem c9_decrypt_total (o : CryptoOracle) (T : TypeModel) (inst : ServerInstance)
    (sk : Option (List Nat)) (hnd : (T.values.map Prod.fst).Nodup) :
    (∀ id vm, (id, vm) ∈ T.values →
      ServerInstance.getAttr (decryptParsedInstance o T inst sk).result id
        = attrStoredValue o sk (sk.map (List.take 16)) (inst.getAttr id) vm
      ∧ ∀ e, decryptAttr o sk (sk.map (List.take 16)) (inst.getAttr id) vm = .error e →
          ServerInstance.getAttr (decryptParsedInstance o T inst sk).result id
            = valueToDefault vm.type
          ∧ id ∈ (decryptParsedInstance o T inst sk).failures)
    ∧ (decryptParsedInstance o T inst sk).failures
        = (T.values.filter
            (fun kv => attrFails o sk (sk.map (List.take 16)) (inst.getAttr kv.1) kv.2)).map
            Prod.fst := by
  have hfail : (decryptParsedInstance o T inst sk).failures
      = (T.values.filter
          (fun kv => attrFails o sk (sk.map (List.take 16)) (inst.getAttr kv.1) kv.2)).map
          Prod.fst := by
    unfold decryptParsedInstance
    rw [foldl_decryptStep_failures]
    simp
  refine ⟨?_, hfail⟩
  intro id vm hmem
  have hget : ServerInstance.getAttr (decryptParsedInstance o T inst sk).result id
      = attrStoredValue o sk (sk.map (List.take 16)) (inst.getAttr id) vm := by
    have hany : T.values.any (fun p => p.1 = id) = true := by
      apply List.any_eq_true.mpr
      exact ⟨(id, vm), hmem, by simp⟩
    unfold decryptParsedInstance
    rw [foldl_copyStep_getAttr_inValues T.values inst inst _ id hany]
    exact foldl_decryptStep_getAttr_mem o sk (sk.map (List.take 16)) inst T.values _ id vm hnd hmem
  refine ⟨hget, ?_⟩
  intro e herr
  constructor
  · rw [hget]
    unfold attrStoredValue
    rw [herr]
  · rw [hfail]
    refine List.mem_map_of_mem Prod.fst (List.mem_filter.mpr ⟨hmem, ?_⟩)
    simp only [attrFails, herr]

/-- C9 witness: a `MailSet` name attribute carrying invalid base64 under a
present session key — the error is absorbed: the name becomes the empty
string and the failure is reported. -/
theorem c9_decrypt_total_witness :
    ServerInstance.getAttr
        (decryptParsedInstance ⟨fun _ _ => none, fun _ _ => none, fun _ _ => none, fun _ => []⟩
          MAIL_SET [("435", .str "!!!")] (some (List.replicate 16 1))).result "435"
      = valueToDefault VTString
    ∧ "435" ∈ (decryptParsedInstance ⟨fun _ _ => none, fun _ _ => none, fun _ _ => none, fun _ => []⟩
          MAIL_SET [("435", .str "!!!")] (some (List.replicate 16 1))).failures :=
  ((c9_decrypt_total ⟨fun _ _ => none, fun _ _ => none, fun _ _ => none, fun _ => []⟩
      MAIL_SET [("435", .str "!!!")] (some (List.replicate 16 1)) (by decide)).1
    "435" ⟨435, VTString, true⟩ (by decide)).2 .invalidBase64 rfl

/-- C1: for an encrypted instance whose group key is found in the key chain
(and whose wrapped session key normalizes to bytes), `resolveSessionKey`
runs exactly the width-dependent fallback ladder, stopping at the first
success: a 16-byte group key tries 128-bit, then 256-bit legacy, then
256-bit authenticated; a 32-byte group key tries 256-bit legacy, then
256-bit authenticated, then 128-bit with the first 16 key bytes; all three
failing yields `None`. -/
theorem c1_session_key_ladder (o : CryptoOracle) (kc : KeyChainS) (inst : ServerInstance)
    (tm : TypeModel) (tryV : Option String) (gk ek : List Nat)
    (henc : tm.encrypted = true)
    (hog : (inst.getAttr (getOwnerAttrs tm).ownerGroup).isNullish = false)
    (hosk : (inst.getAttr (getOwnerAttrs tm).ownerEncSessionKey).isNullish = false)
    (hkey : getGroupKey kc (jsString (inst.getAttr (getOwnerAttrs tm).ownerGroup))
              (resolvedKeyVersion inst tm tryV) = some gk)
    (hek : normalizeEncSessionKey (inst.getAttr (getOwnerAttrs tm).ownerEncSessionKey)
             = some ek) :
    (gk.length = 16 →
      resolveSessionKey o kc inst tm tryV
        = (.ok (ladderFirstSuccess
              [(.m128, o.decryptKey (gk.take 16) ek), (.m256legacy, o.decryptKeyLegacy gk ek),
               (.m256, o.decryptKey gk ek)]).1,
           (ladderFirstSuccess
              [(.m128, o.decryptKey (gk.take 16) ek), (.m256legacy, o.decryptKeyLegacy gk ek),
               (.m256, o.decryptKey gk ek)]).2))
    ∧ (gk.length = 32 →
      resolveSessionKey o kc inst tm tryV
        = (.ok (ladderFirstSuccess
              [(.m256legacy, o.decryptKeyLegacy gk ek), (.m256, o.decryptKey gk ek),
               (.m128, o.decryptKey (gk.take 16) ek)]).1,
           (ladderFirstSuccess
              [(.m256legacy, o.decryptKeyLegacy gk ek), (.m256, o.decryptKey gk ek),
               (.m128, o.decryptKey (gk.take 16) ek)]).2)) := by
  constructor
  · intro hlen
    simp only [resolveSessionKey, henc, hog, hosk, hkey, hek, hlen, Bool.not_true,
               Bool.false_or, Bool.or_self, Bool.false_eq_true, if_false, if_true]
    cases h1 : o.decryptKey (gk.take 16) ek with
    | some sk => simp [ladderFirstSuccess, h1]
    | none =>
      cases h2 : o.decryptKeyLegacy gk ek with
      | some sk => simp [ladderFirstSuccess, h1, h2]
      | none =>
        cases h3 : o.decryptKey gk ek with
        | some sk => simp [ladderFirstSuccess, h1, h2, h3]
        | none => simp [ladderFirstSuccess, h1, h2, h3]
  · intro hlen
    simp only [resolveSessionKey, henc, hog, hosk, hkey, hek, hlen, Bool.not_true,
               Bool.false_or, Bool.or_self, Bool.false_eq_true, if_false, if_true]
    norm_num
    cases h1 : o.decryptKeyLegacy gk ek with
    | some sk => simp [ladderFirstSuccess, h1]
    | none =>
      cases h2 : o.decryptKey gk ek with
      | some sk => simp [ladderFirstSuccess, h1, h2]
      | none =>
        cases h3 : o.decryptKey (gk.take 16) ek with
        | some sk => simp [ladderFirstSuccess, h1, h2, h3]
        | none => simp [ladderFirstSuccess, h1, h2, h3]

/-- C1 witness: a 16-byte mail group key at version "0" whose 128-bit unwrap
fails and whose 256-bit legacy unwrap succeeds — the trace shows exactly the
two attempts, in ladder order. -/
theorem c1_session_key_ladder_witness :
    resolveSessionKey
        ⟨fun _ _ => none, fun _ _ => some [7], fun _ _ => none, fun _ => []⟩
        ⟨[("g", ⟨"0", [("0", List.replicate 16 3)]⟩)]⟩
        [("589", .str "g"), ("434", .bytes [1, 2]), ("1399", .num 0)]
        MAIL_SET none
      = (.ok (some [7]), [(.m128, false), (.m256legacy, true)]) :=
  (c1_session_key_ladder
      ⟨fun _ _ => none, fun _ _ => some [7], fun _ _ => none, fun _ => []⟩
      ⟨[("g", ⟨"0", [("0", List.replicate 16 3)]⟩)]⟩
      [("589", .str "g"), ("434", .bytes [1, 2]), ("1399", .num 0)]
      MAIL_SET none (List.replicate 16 3) [1, 2]
      rfl rfl rfl rfl rfl).1 rfl

/-- A former-key link the walk skips: its `ownerEncGKey` is nullish or
normalizes to zero bytes. -/
theorem walkLinks_skip (o : CryptoOracle) (k : List Nat) (link : ServerInstance)
    (l : List ServerInstance)
    (h : (link.getAttr GROUP_KEY_ATTR_OWNER_ENC_GKEY).isNullish = true
      ∨ toUint8Array (link.getAttr GROUP_KEY_ATTR_OWNER_ENC_GKEY) = []) :
    walkLinks o k (link :: l) = walkLinks o k l := by
  conv_lhs => unfold walkLinks
  rcases h with h | h
  · simp [h]
  · by_cases h1 : (link.getAttr GROUP_KEY_ATTR_OWNER_ENC_GKEY).isNullish
    · simp [h1]
    · simp [h1, h]

theorem walkLinks_skip_middle (o : CryptoOracle) :
    ∀ (pre : List ServerInstance) (k : List Nat) (post : List ServerInstance)
      (link : ServerInstance),
      ((link.getAttr GROUP_KEY_ATTR_OWNER_ENC_GKEY).isNullish = true
        ∨ toUint8Array (link.getAttr GROUP_KEY_ATTR_OWNER_ENC_GKEY) = []) →
      walkLinks o k (pre ++ link :: post) = walkLinks o k (pre ++ post)
  | [], k, post, link, h => walkLinks_skip o k link post h
  | item :: pre', k, post, link, h => by
    simp only [List.cons_append]
    by_cases h1 : (item.getAttr GROUP_KEY_ATTR_OWNER_ENC_GKEY).isNullish
    · rw [walkLinks_skip o k item _ (Or.inl h1), walkLinks_skip o k item _ (Or.inl h1)]
      exact walkLinks_skip_middle o pre' k post link h
    · by_cases h2 : toUint8Array (item.getAttr GROUP_KEY_ATTR_OWNER_ENC_GKEY) = []
      · rw [walkLinks_skip o k item _ (Or.inr h2), walkLinks_skip o k item _ (Or.inr h2)]
        exact walkLinks_skip_middle o pre' k post link h
      · unfold walkLinks
        simp only [h1, h2, Bool.false_eq_true, if_false, List.length_eq_zero, if_neg h2]
        cases h3 : o.decryptKey k (toUint8Array (item.getAttr GROUP_KEY_ATTR_OWNER_ENC_GKEY)) with
        | some k' => exact walkLinks_skip_middle o pre' k' post link h
        | none => rfl

/-- C10: in the former-key walk, a link whose `ownerEncGKey` is missing (or
nullish), or whose normalization yields zero bytes, is silently skipped —
the walk over the remaining links proceeds with the current key unchanged —
while a failed decryption of a non-empty link aborts the walk with `None`. -/
theorem c10_skippable_links (o : CryptoOracle) :
    (∀ (k : List Nat) (pre post : List ServerInstance) (link : ServerInstance),
      ((link.getAttr GROUP_KEY_ATTR_OWNER_ENC_GKEY).isNullish = true
        ∨ toUint8Array (link.getAttr GROUP_KEY_ATTR_OWNER_ENC_GKEY) = []) →
      walkLinks o k (pre ++ link :: post) = walkLinks o k (pre ++ post))
    ∧ (∀ (k : List Nat) (link : ServerInstance) (rest : List ServerInstance),
      (link.getAttr GROUP_KEY_ATTR_OWNER_ENC_GKEY).isNullish = false →
      toUint8Array (link.getAttr GROUP_KEY_ATTR_OWNER_ENC_GKEY) ≠ [] →
      o.decryptKey k (toUint8Array (link.getAttr GROUP_KEY_ATTR_OWNER_ENC_GKEY)) = none →
      walkLinks o k (link :: rest) = none) := by
  constructor
  · intro k pre post link h
    exact walkLinks_skip_middle o pre k post link h
  · intro k link rest h1 h2 h3
    unfold walkLinks
    simp [h1, h2, h3]

/-- C10 witness: a link without `ownerEncGKey` is skipped (walking it equals
walking nothing), and a link with one byte of `ownerEncGKey` aborts the walk
when decryption fails. -/
theorem c10_skippable_links_witness :
    walkLinks ⟨fun k b => some (k ++ b), fun _ _ => none, fun _ _ => none, fun _ => []⟩
        [1] [[("9", .str "y")]]
      = walkLinks ⟨fun k b => some (k ++ b), fun _ _ => none, fun _ _ => none, fun _ => []⟩ [1] []
    ∧ walkLinks ⟨fun _ _ => none, fun _ _ => none, fun _ _ => none, fun _ => []⟩
        [1] [[("2261", .bytes [5])]]
      = none :=
  ⟨(c10_skippable_links ⟨fun k b => some (k ++ b), fun _ _ => none, fun _ _ => none,
        fun _ => []⟩).1 [1] [] [] [("9", .str "y")] (Or.inl rfl),
   (c10_skippable_links ⟨fun _ _ => none, fun _ _ => none, fun _ _ => none, fun _ => []⟩).2
     [1] [("2261", .bytes [5])] [] rfl (by decide) rfl⟩

/-- C2: when the current version is strictly greater than the target, the
current key is cached, the `Group` entity yields a former-keys list, the
range query returns the links, and the walk over them decrypts successfully
(`walkLinks … = some K`), the walker returns `K`; the pre-pass (the walker's
caller over an uncached target version) inserts `K` into the key chain at
`(group, target)`, so that a subsequent lookup returns exactly `K`. -/
theorem c2_former_key_walk (o : CryptoOracle) (eo : EntityOracle) (kc : KeyChainS)
    (groupId currentKeyVersion targetKeyVersion : String) (cur tgt : Nat)
    (curKey K : List Nat) (groupRaw : ServerInstance) (lid : String)
    (links : List ServerInstance)
    (hc : parseKeyVersion currentKeyVersion = .ok cur)
    (ht : parseKeyVersion targetKeyVersion = .ok tgt)
    (hgt : tgt < cur)
    (hcur : getGroupKey kc groupId currentKeyVersion = some curKey)
    (hload : eo.loadEntity GROUP.name groupId = some groupRaw)
    (hlid : formerKeysListId groupRaw = some lid)
    (hrange : eo.loadRange GROUP_KEY.name lid (stringToCustomId (toString cur)) (cur - tgt) true
                = some links)
    (hwalk : walkLinks o curKey links = some K)
    (htnc : getGroupKey kc groupId targetKeyVersion = none) :
    loadFormerGroupKey o eo kc groupId currentKeyVersion targetKeyVersion
      = (.ok (some K),
         [.entity GROUP.name groupId,
          .range GROUP_KEY.name lid (stringToCustomId (toString cur)) (cur - tgt) true])
    ∧ (formerKeyPrePassStep o eo kc groupId currentKeyVersion targetKeyVersion).1
        = .ok (addGroupKey kc groupId targetKeyVersion K)
    ∧ getGroupKey (addGroupKey kc groupId targetKeyVersion K) groupId targetKeyVersion
        = some K := by
  have hmain : loadFormerGroupKey o eo kc groupId currentKeyVersion targetKeyVersion
      = (.ok (some K),
         [.entity GROUP.name groupId,
          .range GROUP_KEY.name lid (stringToCustomId (toString cur)) (cur - tgt) true]) := by
    unfold loadFormerGroupKey
    rw [hc, ht]
    have hnle : ¬ (cur ≤ tgt) := not_le.mpr hgt
    simp [hnle, hcur, hload, hlid, hrange, hwalk]
  refine ⟨hmain, ?_, getGroupKey_addGroupKey kc groupId targetKeyVersion K⟩
  unfold formerKeyPrePassStep
  rw [htnc, hmain]
  rfl

/-- C2 witness: one former-key link from version "1" down to "0"; the walker
returns the decrypted key and after the pre-pass insertion a lookup at
`("g", "0")` finds it. -/
theorem c2_former_key_walk_witness :
    loadFormerGroupKey ⟨fun _ b => some b, fun _ _ => none, fun _ _ => none, fun _ => []⟩
        ⟨fun _ _ => some [("2273", .obj [("2269", .str "L")])],
         fun _ _ _ _ _ => some [[("2261", .str "AAAA")]]⟩
        ⟨[("g", ⟨"1", [("1", [1])]⟩)]⟩ "g" "1" "0"
      = (.ok (some [0, 0, 0]),
         [.entity "Group" "g", .range "GroupKey" "L" (stringToCustomId "1") 1 true])
    ∧ (formerKeyPrePassStep ⟨fun _ b => some b, fun _ _ => none, fun _ _ => none, fun _ => []⟩
        ⟨fun _ _ => some [("2273", .obj [("2269", .str "L")])],
         fun _ _ _ _ _ => some [[("2261", .str "AAAA")]]⟩
        ⟨[("g", ⟨"1", [("1", [1])]⟩)]⟩ "g" "1" "0").1
      = .ok (addGroupKey ⟨[("g", ⟨"1", [("1", [1])]⟩)]⟩ "g" "0" [0, 0, 0])
    ∧ getGroupKey (addGroupKey ⟨[("g", ⟨"1", [("1", [1])]⟩)]⟩ "g" "0" [0, 0, 0]) "g" "0"
      = some [0, 0, 0] :=
  c2_former_key_walk
    ⟨fun _ b => some b, fun _ _ => none, fun _ _ => none, fun _ => []⟩
    ⟨fun _ _ => some [("2273", .obj [("2269", .str "L")])],
     fun _ _ _ _ _ => some [[("2261", .str "AAAA")]]⟩
    ⟨[("g", ⟨"1", [("1", [1])]⟩)]⟩ "g" "1" "0" 1 0 [1] [0, 0, 0]
    [("2273", .obj [("2269", .str "L")])] "L" [[("2261", .str "AAAA")]]
    rfl rfl (by decide) rfl rfl rfl rfl rfl rfl

/-- C7: a session-creation response with a non-empty `challenges` list makes
login fail with the two-factor error, before the session id is derived and
before the key chain is ever constructed. -/
theorem c7_two_factor_rejection (sha256Hash : List Nat → List Nat)
    (res : CreateSessionReturn) (h : res.challenges ≠ []) :
    loginThenUnlock sha256Hash res = (.error .twoFactorRequired, [])
    ∧ LoginEvent.derivedSessionId ∉ (loginThenUnlock sha256Hash res).2
    ∧ LoginEvent.createdKeyChain ∉ (loginThenUnlock sha256Hash res).2 := by
  have hlen : res.challenges.length > 0 := List.length_pos.mpr h
  have hmain : loginThenUnlock sha256Hash res = (.error .twoFactorRequired, []) := by
    unfold loginThenUnlock loginFromSessionResponse
    simp [hlen]
  refine ⟨hmain, ?_, ?_⟩ <;> rw [hmain] <;> simp

/-- C7 witness: a response with one (empty) challenge object. -/
theorem c7_two_factor_rejection_witness :
    loginThenUnlock (fun _ => []) ⟨[.obj []], "tok", "user"⟩
      = (.error .twoFactorRequired, []) :=
  (c7_two_factor_rejection (fun _ => []) ⟨[.obj []], "tok", "user"⟩ (by simp)).1

/-- C6: the session-id pair is computed from the access token by
base64url-decoding it, re-encoding the first nine bytes as base64-ext (list
id) and base64url-encoding the SHA-256 digest of the remaining bytes
(element id); in particular for the token whose decoded bytes are nine zero
bytes followed by the UTF-8 of "abc". -/
theorem c6_session_id_from_token (sha256Hash : List Nat → List Nat) :
    (∀ token b64 bytes,
      base64UrlToBase64 token = some b64 →
      base64ToUint8Array b64 = some bytes →
      getSessionIdFromAccessToken sha256Hash token
        = some (base64ToBase64Ext (uint8ArrayToBase64 (bytes.take 9)),
                base64ToBase64Url (uint8ArrayToBase64 (sha256Hash (bytes.drop 9)))))
    ∧ getSessionIdFromAccessToken sha256Hash
        (base64ToBase64Url (uint8ArrayToBase64 (List.replicate 9 0 ++ utf8Encode "abc")))
      = some (base64ToBase64Ext (uint8ArrayToBase64 (List.replicate 9 0)),
              base64ToBase64Url (uint8ArrayToBase64 (sha256Hash (utf8Encode "abc")))) := by
  constructor
  · intro token b64 bytes h1 h2
    simp [getSessionIdFromAccessToken, h1, h2]
  · rfl

/-- C6 witness: the concrete token `"AAAAAAAAAAAAYWJj"` (nine zero bytes then
`"abc"`), with the digest primitive instantiated by the identity. -/
theorem c6_session_id_from_token_witness :
    getSessionIdFromAccessToken (fun bs => bs) "AAAAAAAAAAAAYWJj"
      = some (base64ToBase64Ext (uint8ArrayToBase64 (List.replicate 9 0)),
              base64ToBase64Url (uint8ArrayToBase64 [97, 98, 99])) := by
  have h := (c6_session_id_from_token (fun bs => bs)).1 "AAAAAAAAAAAAYWJj" "AAAAAAAAAAAAYWJj"
    (List.replicate 9 0 ++ [97, 98, 99]) (by decide) (by decide)
  rw [show List.take 9 (List.replicate 9 0 ++ [97, 98, 99]) = List.replicate 9 0 by decide,
      show List.drop 9 (List.replicate 9 0 ++ [97, 98, 99]) = [97, 98, 99] by decide] at h
  exact h

/-- C3 counterexample: the claim says versions are tried in the order
`[instance version, …other cached versions]`; with a single cached version
`"1"` and instance version `"0"` that order would be `["0", "1"]`, but the
source computes `["0"]` (the `availableVersions.length <= 1` shortcut). -/
theorem c3_version_order_counterexample :
    ¬ (versionsToTry ["1"] "0" = "0" :: List.filter (fun v => v ≠ "0") ["1"]) := by
  decide

/-- C3 amended: (1)–(2) the loop tries `[instanceVersion]` when at most one
version is cached, else `[instanceVersion, …other cached versions]`;
(3) a version whose session key does not resolve is skipped; (4) a retry is
triggered exactly when decryption of name (435) or color (1479) reported
failure — otherwise the loop stops with that decryption; (5) on a relevant
failure the loop continues, keeping the failed decryption as fallback result
when no later version resolves a key; (6) only when no tried version
assigned a decryption at all is the instance decrypted with a null session
key, which (7) zeroes every encrypted attribute and (8) preserves
association ids (wire keys outside the value table). -/
theorem c3_retry_loop_amended (o : CryptoOracle) (kc : KeyChainS)
    (safe : List (String × JsValue)) :
    (∀ (avail : List String) (iv : String), avail.length ≤ 1 → versionsToTry avail iv = [iv])
    ∧ (∀ (avail : List String) (iv : String), 2 ≤ avail.length →
        versionsToTry avail iv = iv :: avail.filter (fun v => v ≠ iv))
    ∧ (∀ (v : String) (rest : List String),
        (resolveSessionKey o kc safe MAIL_SET (some v)).1 = .ok none →
        folderLoop o kc safe (v :: rest) = folderLoop o kc safe rest)
    ∧ (∀ (v : String) (rest : List String) (sk : List Nat),
        (resolveSessionKey o kc safe MAIL_SET (some v)).1 = .ok (some sk) →
        ((decryptParsedInstance o MAIL_SET safe (some sk)).failures.contains "435"
          || (decryptParsedInstance o MAIL_SET safe (some sk)).failures.contains "1479") = false →
        folderLoop o kc safe (v :: rest)
          = .ok (some (decryptParsedInstance o MAIL_SET safe (some sk)).result))
    ∧ (∀ (v : String) (rest : List String) (sk : List Nat),
        (resolveSessionKey o kc safe MAIL_SET (some v)).1 = .ok (some sk) →
        ((decryptParsedInstance o MAIL_SET safe (some sk)).failures.contains "435"
          || (decryptParsedInstance o MAIL_SET safe (some sk)).failures.contains "1479") = true →
        folderLoop o kc safe (v :: rest)
          = match folderLoop o kc safe rest with
            | .error e => .error e
            | .ok (some d) => .ok (some d)
            | .ok none => .ok (some (decryptParsedInstance o MAIL_SET safe (some sk)).result))
    ∧ (∀ (avail : List String),
        folderLoop o kc safe (versionsToTry avail (mailSetInstanceVersion safe)) = .ok none →
        foldersDecryptInstance o kc avail safe
          = .ok (decryptParsedInstance o MAIL_SET safe none).result)
    ∧ (∀ id vm, (id, vm) ∈ MAIL_SET.values → vm.encrypted = true →
        ServerInstance.getAttr (decryptParsedInstance o MAIL_SET safe none).result id
          = valueToDefault vm.type)
    ∧ (∀ k v, (k, v) ∈ safe → MAIL_SET.values.any (fun p => p.1 = k) = false →
        ServerInstance.getAttr (decryptParsedInstance o MAIL_SET safe none).result k
          = ServerInstance.getAttr safe k) := by
  refine ⟨?_, ?_, ?_, ?_, ?_, ?_, ?_, ?_⟩
  · intro avail iv h
    simp [versionsToTry, h]
  · intro avail iv h
    have hn : ¬ (avail.length ≤ 1) := by omega
    simp [versionsToTry, hn]
  · intro v rest h
    conv_lhs => unfold folderLoop
    rw [h]
  · intro v rest sk h hfail
    simp only [folderLoop, h, hfail, Bool.false_eq_true, if_false]
  · intro v rest sk h hfail
    simp only [folderLoop, h, hfail, if_true]
  · intro avail h
    unfold foldersDecryptInstance
    rw [h]
  · intro id vm hmem hvm
    have hany : MAIL_SET.values.any (fun p => p.1 = id) = true := by
      apply List.any_eq_true.mpr
      exact ⟨(id, vm), hmem, by simp⟩
    unfold decryptParsedInstance
    rw [foldl_copyStep_getAttr_inValues MAIL_SET.values safe safe _ id hany]
    rw [foldl_decryptStep_getAttr_mem o none (Option.map (List.take 16) none) safe
          MAIL_SET.values _ id vm (by decide) hmem]
    unfold attrStoredValue decryptAttr
    simp [hvm]
  · intro k v hmem hnotin
    unfold decryptParsedInstance
    exact foldl_copyStep_getAttr_mem MAIL_SET.values safe safe _ k ⟨v, hmem⟩ hnotin

/-- C3 witness: with one cached version the order is just the instance
version; and a `MailSet` whose owner version resolves no key falls back to
the null-key decryption. -/
theorem c3_retry_loop_amended_witness :
    versionsToTry ["1"] "0" = ["0"]
    ∧ foldersDecryptInstance ⟨fun _ _ => none, fun _ _ => none, fun _ _ => none, fun _ => []⟩
        ⟨[]⟩ [] [("1399", .num 0)]
      = .ok (decryptParsedInstance ⟨fun _ _ => none, fun _ _ => none, fun _ _ => none, fun _ => []⟩
          MAIL_SET [("1399", .num 0)] none).result :=
  ⟨(c3_retry_loop_amended ⟨fun _ _ => none, fun _ _ => none, fun _ _ => none, fun _ => []⟩
      ⟨[]⟩ [("1399", .num 0)]).1 ["1"] "0" (by decide),
   (c3_retry_loop_amended ⟨fun _ _ => none, fun _ _ => none, fun _ _ => none, fun _ => []⟩
      ⟨[]⟩ [("1399", .num 0)]).2.2.2.2.2.1 [] rfl⟩

end Tutanota
